import Mathlib

/-!
Verification of the MCP client / agent-loop code in
`integration/MCP/Bedrock_marketplace_with_mcp_and_langchain.ipynb`.

The development shallowly embeds the notebook's pure logic:
`is_valid_json`, `is_tool_use`, `handle_llm_response`, the `MCP_client`
class (`__init__`, `list_tools`, `execute_tool`) and the `while not
AI_responded` invocation loop.  The external world (the MCP server the
stdio transport connects to) is a parameter `env`; Python exceptions are
an explicit `Except` error channel.
-/

/-- The opening curly brace character (written by code point to keep the
source free of literal braces). -/
def lbrace : Char := Char.ofNat 123

/-- The closing curly brace character. -/
def rbrace : Char := Char.ofNat 125

/-- A parsed JSON value, as produced by Python's `json.loads`.  Numbers
keep their source lexeme (the notebook never inspects numeric values, so
int/float conversion is irrelevant to every claim); objects keep their
fields in source order, with lookup taking the last duplicate as a Python
dict built by repeated assignment does. -/
inductive JValue where
  | null
  | bool (b : Bool)
  | num (lit : String)
  | str (s : String)
  | arr (elems : List JValue)
  | obj (fields : List (String × JValue))

/-- Lookup in an object's field list with Python-dict semantics: the last
occurrence of a duplicated key wins. -/
def fieldsGet : List (String × JValue) → String → Option JValue
  | [], _ => none
  | (k, v) :: rest, key =>
    match fieldsGet rest key with
    | some v2 => some v2
    | none => if k = key then some v else none

/-- Key membership in an object's field list (`key in dict` in Python). -/
def fieldsHas : List (String × JValue) → String → Bool
  | [], _ => false
  | (k, _) :: rest, key => k = key || fieldsHas rest key

/-- `v[key]`-style lookup; `none` when `v` is not an object or lacks the
key.  (In the notebook this is only reached on objects.) -/
def JValue.dictGet : JValue → String → Option JValue
  | JValue.obj fs, k => fieldsGet fs k
  | _, _ => none

/-- `key in v` for an object; false on non-objects. -/
def JValue.hasKey : JValue → String → Bool
  | JValue.obj fs, k => fieldsHas fs k
  | _, _ => false

/-- Whether a value equals a given Python string (used for comparing a
JSON value against a string dict key). -/
def JValue.isStrEq : JValue → String → Bool
  | JValue.str s, k => decide (s = k)
  | _, _ => false

/-- Whether the corresponding Python object is hashable: lists and dicts
are not, so using one as a dict key (even in an `in` test) raises
`TypeError`. -/
def JValue.pyHashable : JValue → Bool
  | JValue.arr _ => false
  | JValue.obj _ => false
  | _ => true

/-- JSON whitespace skipping, as `json.loads` does between tokens. -/
def skipWs : List Char → List Char
  | [] => []
  | c :: cs => if c = ' ' || c = '\t' || c = '\n' || c = '\r' then skipWs cs else c :: cs

/-- Value of one hexadecimal digit. -/
def hexVal (c : Char) : Option Nat :=
  if '0' ≤ c ∧ c ≤ '9' then some (c.toNat - '0'.toNat)
  else if 'a' ≤ c ∧ c ≤ 'f' then some (c.toNat - 'a'.toNat + 10)
  else if 'A' ≤ c ∧ c ≤ 'F' then some (c.toNat - 'A'.toNat + 10)
  else none

/-- Prepend a decoded character to the result of parsing the rest of a
JSON string body. -/
def consDecoded (d : Char) : Option (List Char × List Char) → Option (List Char × List Char)
  | some (xs, r) => some (d :: xs, r)
  | none => none

/-- Body of a JSON string after the opening quote: the decoded characters
and the input after the closing quote.  Follows Python's strict decoder:
the standard escapes and `\uXXXX` are decoded, an unescaped control
character is an error.  The fuel argument only bounds recursion and is
always sufficient at the call sites. -/
def parseStringBody : Nat → List Char → Option (List Char × List Char)
  | 0, _ => none
  | _ + 1, [] => none
  | fuel + 1, c :: cs =>
    if c = '"' then some ([], cs)
    else if c = '\\' then
      match cs with
      | [] => none
      | e :: cs2 =>
        if e = '"' then consDecoded '"' (parseStringBody fuel cs2)
        else if e = '\\' then consDecoded '\\' (parseStringBody fuel cs2)
        else if e = '/' then consDecoded '/' (parseStringBody fuel cs2)
        else if e = 'b' then consDecoded (Char.ofNat 8) (parseStringBody fuel cs2)
        else if e = 'f' then consDecoded (Char.ofNat 12) (parseStringBody fuel cs2)
        else if e = 'n' then consDecoded '\n' (parseStringBody fuel cs2)
        else if e = 'r' then consDecoded '\r' (parseStringBody fuel cs2)
        else if e = 't' then consDecoded '\t' (parseStringBody fuel cs2)
        else if e = 'u' then
          match cs2 with
          | h1 :: h2 :: h3 :: h4 :: cs3 =>
            match hexVal h1, hexVal h2, hexVal h3, hexVal h4 with
            | some a, some b, some c2, some d2 =>
              consDecoded (Char.ofNat (((a * 16 + b) * 16 + c2) * 16 + d2))
                (parseStringBody fuel cs3)
            | _, _, _, _ => none
          | _ => none
        else none
    else if c.toNat < 32 then none
    else consDecoded c (parseStringBody fuel cs)

/-- Longest run of decimal digits at the head of the input. -/
def spanDigits : List Char → List Char × List Char
  | [] => ([], [])
  | c :: cs =>
    if c.isDigit then
      match spanDigits cs with
      | (ds, r) => (c :: ds, r)
    else ([], c :: cs)

/-- Integer part of a JSON number: `0` or a nonzero digit followed by
digits (leading zeros are not accepted, as in the `json` module's number
regular expression). -/
def parseIntPart : List Char → Option (List Char × List Char)
  | [] => none
  | c :: cs =>
    if c = '0' then some ([c], cs)
    else if c.isDigit then
      match spanDigits cs with
      | (ds, r) => some (c :: ds, r)
    else none

/-- Optional fraction part `.digits`; yields `[]` and leaves the input
alone when absent or ill-formed (the number then ends before the dot). -/
def parseFracPart (cs : List Char) : List Char × List Char :=
  match cs with
  | '.' :: rest =>
    match spanDigits rest with
    | ([], _) => ([], cs)
    | (ds, r) => ('.' :: ds, r)
  | _ => ([], cs)

/-- Optional exponent part `e[+-]?digits`. -/
def parseExpPart (cs : List Char) : List Char × List Char :=
  match cs with
  | c :: rest =>
    if c = 'e' || c = 'E' then
      match rest with
      | s :: rest2 =>
        if s = '+' || s = '-' then
          match spanDigits rest2 with
          | ([], _) => ([], cs)
          | (ds, r) => (c :: s :: ds, r)
        else
          match spanDigits rest with
          | ([], _) => ([], cs)
          | (ds, r) => (c :: ds, r)
      | [] => ([], cs)
    else ([], cs)
  | [] => ([], [])

/-- A JSON number lexeme at the head of the input. -/
def parseNumber (cs : List Char) : Option (List Char × List Char) :=
  match cs with
  | '-' :: rest =>
    match parseIntPart rest with
    | none => none
    | some (ip, r1) =>
      match parseFracPart r1 with
      | (fp, r2) =>
        match parseExpPart r2 with
        | (ep, r3) => some ('-' :: (ip ++ fp ++ ep), r3)
  | _ =>
    match parseIntPart cs with
    | none => none
    | some (ip, r1) =>
      match parseFracPart r1 with
      | (fp, r2) =>
        match parseExpPart r2 with
        | (ep, r3) => some (ip ++ fp ++ ep, r3)

/-- Drop an expected literal from the head of the input. -/
def dropLit : List Char → List Char → Option (List Char)
  | [], cs => some cs
  | l :: ls, c :: cs => if c = l then dropLit ls cs else none
  | _ :: _, [] => none

/-- The constant and number tokens `json.loads` accepts (including the
Python extensions `NaN`, `Infinity`, `-Infinity`). -/
def parseConst (cs : List Char) : Option (JValue × List Char) :=
  match dropLit "null".data cs with
  | some r => some (JValue.null, r)
  | none =>
    match dropLit "true".data cs with
    | some r => some (JValue.bool true, r)
    | none =>
      match dropLit "false".data cs with
      | some r => some (JValue.bool false, r)
      | none =>
        match dropLit "NaN".data cs with
        | some r => some (JValue.num "NaN", r)
        | none =>
          match dropLit "Infinity".data cs with
          | some r => some (JValue.num "Infinity", r)
          | none =>
            match dropLit "-Infinity".data cs with
            | some r => some (JValue.num "-Infinity", r)
            | none =>
              match parseNumber cs with
              | some (lit, r) => some (JValue.num (String.mk lit), r)
              | none => none

/-- Parser mode: a value, the member list of an object (after the opening
brace, first member expected), or the element list of an array. -/
inductive PMode where
  | value
  | objMembers
  | arrElems

/-- Recursive-descent JSON parser, the core of the `json.loads` model.
Structurally recursive on fuel; `objMembers` and `arrElems` return the
collected `JValue.obj`/`JValue.arr`.  Trailing commas, missing colons,
non-string keys and unknown tokens fail exactly as the strict Python
decoder does. -/
def parseF : Nat → PMode → List Char → Option (JValue × List Char)
  | 0, _, _ => none
  | fuel + 1, PMode.value, cs0 =>
    match skipWs cs0 with
    | [] => none
    | c :: rest =>
      if c = '"' then
        match parseStringBody (fuel + 1) rest with
        | some (body, r) => some (JValue.str (String.mk body), r)
        | none => none
      else if c = lbrace then
        match skipWs rest with
        | d :: r2 =>
          if d = rbrace then some (JValue.obj [], r2)
          else parseF fuel PMode.objMembers (d :: r2)
        | [] => none
      else if c = '[' then
        match skipWs rest with
        | d :: r2 =>
          if d = ']' then some (JValue.arr [], r2)
          else parseF fuel PMode.arrElems (d :: r2)
        | [] => none
      else parseConst (c :: rest)
  | fuel + 1, PMode.objMembers, cs =>
    match cs with
    | c :: rest =>
      if c = '"' then
        match parseStringBody (fuel + 1) rest with
        | some (keyChars, r1) =>
          match skipWs r1 with
          | ':' :: r2 =>
            match parseF fuel PMode.value r2 with
            | some (v, r3) =>
              match skipWs r3 with
              | s :: r4 =>
                if s = ',' then
                  match parseF fuel PMode.objMembers (skipWs r4) with
                  | some (JValue.obj fs, r5) =>
                    some (JValue.obj ((String.mk keyChars, v) :: fs), r5)
                  | _ => none
                else if s = rbrace then some (JValue.obj [(String.mk keyChars, v)], r4)
                else none
              | [] => none
            | none => none
          | _ => none
        | none => none
      else none
    | [] => none
  | fuel + 1, PMode.arrElems, cs =>
    match parseF fuel PMode.value cs with
    | some (v, r1) =>
      match skipWs r1 with
      | s :: r2 =>
        if s = ',' then
          match parseF fuel PMode.arrElems r2 with
          | some (JValue.arr xs, r3) => some (JValue.arr (v :: xs), r3)
          | _ => none
        else if s = ']' then some (JValue.arr [v], r2)
        else none
      | [] => none
    | none => none

/-- Model of Python's `json.loads`: one JSON document, surrounded by
optional whitespace; anything after it is an "Extra data" error
(`none`).  The fuel is comfortably larger than any possible recursion
depth for the given input. -/
def json_loads (s : String) : Option JValue :=
  match parseF (2 * s.data.length + 2) PMode.value s.data with
  | some (v, rest) => if (skipWs rest).isEmpty then some v else none
  | none => none

/-!
## `is_valid_json`

The notebook's helper runs the regular expression
`re.search(r'\x7b([\s\S]*)\x7d', text)`: a greedy match from the first
opening brace that has a closing brace somewhere after it, up to the last
closing brace of the whole text.  `braceSpan` computes the content of the
capture group; `lastBraceSplit` is the greedy part (everything before the
last closing brace).
-/

/-- The longest prefix of the input that is followed by a closing brace
(i.e. the content before the LAST closing brace), `none` when the input
has no closing brace. -/
def lastBraceSplit : List Char → Option (List Char)
  | [] => none
  | c :: rest =>
    match lastBraceSplit rest with
    | some t => some (c :: t)
    | none => if c = rbrace then some [] else none

/-- Capture group of `re.search` of the notebook's pattern: the text
strictly between the first opening brace and the last closing brace,
`none` when the pattern does not match. -/
def braceSpan : List Char → Option (List Char)
  | [] => none
  | c :: rest => if c = lbrace then lastBraceSplit rest else braceSpan rest

/-- The Python dict `is_valid_json` returns: `isJSON` and `parsedJson`. -/
structure JsonCheck where
  isJSON : Bool
  parsedJson : Option JValue

/-- The notebook's `is_valid_json`: extract the span between the first
opening and last closing brace, re-wrap it in braces and try
`json.loads` on it. -/
def is_valid_json (text : String) : JsonCheck :=
  match braceSpan text.data with
  | none => { isJSON := false, parsedJson := none }
  | some g =>
    match json_loads (String.mk (lbrace :: (g ++ [rbrace]))) with
    | some parsed_json => { isJSON := true, parsedJson := some parsed_json }
    | none => { isJSON := false, parsedJson := none }

/-- The Python dict `is_tool_use` returns.  In the notebook `tool_use` is
either the empty string (modelled `none`) or the parsed dict, and
`inputMessage` is either the empty string or the whole input. -/
structure ToolUseCheck where
  tool_use : Option JValue
  inputMessage : String

/-- The notebook's `is_tool_use`: a reply that parses (via
`is_valid_json`) to a JSON object containing an `"operation"` key is a
tool use; anything else is an input message.  (When `isJSON` is true,
`parsedJson` is always `some`, so the wildcard arm of the match is the
`isJSON = false` branch of the Python code.) -/
def is_tool_use (input_data : String) : ToolUseCheck :=
  match is_valid_json input_data with
  | { isJSON := true, parsedJson := some parsed_json } =>
    if parsed_json.hasKey "operation" then
      { tool_use := some parsed_json, inputMessage := "" }
    else
      { tool_use := none, inputMessage := input_data }
  | _ => { tool_use := none, inputMessage := input_data }

/-!
## The MCP client

The stdio transport, the remote server and pydantic's
`model_dump_json` rendering are external to the notebook; they are
modelled by an environment `env : StdioServerParameters → MCPServer`
giving, for given launch parameters, the server the transport connects
to: its tool descriptions (each already rendered by
`model_dump_json(indent=4)`) and its `call_tool` behaviour.
-/

/-- The `StdioServerParameters` the notebook constructs. -/
structure StdioServerParameters where
  command : String
  args : List String

/-- A tool description as the server reports it; `dump_json` stands for
the (external, pydantic) `model_dump_json(indent=4)` rendering. -/
structure Tool where
  dump_json : String

/-- `tool.model_dump_json(indent=4)`. -/
def Tool.model_dump_json (t : Tool) : String := t.dump_json

/-- The result of `session.call_tool`: the text of each content item and
the `isError` flag. -/
structure CallToolResult where
  content : List String
  isError : Bool

/-- The external MCP server's observable behaviour. -/
structure MCPServer where
  tools : List Tool
  call_tool : JValue → JValue → CallToolResult

/-- An MCP `ClientSession` over a connected server. -/
structure ClientSession where
  server : MCPServer
  initialized : Bool

/-- Opening a session on the transport (`async with ClientSession(...)`);
a fresh session is not yet initialized. -/
def ClientSession.new (srv : MCPServer) : ClientSession :=
  { server := srv, initialized := false }

/-- `await session.initialize()`. -/
def ClientSession.startup (s : ClientSession) : ClientSession :=
  { s with initialized := true }

/-- The result object of `await session.list_tools()` (field `tools`). -/
structure ListToolsResult where
  tools : List Tool

/-- `await session.list_tools()`. -/
def ClientSession.list_tools (s : ClientSession) : ListToolsResult :=
  { tools := s.server.tools }

/-- `await session.call_tool(tool_name, tool_parameters)`. -/
def ClientSession.call_tool (s : ClientSession) (nm ps : JValue) : CallToolResult :=
  s.server.call_tool nm ps

/-- A Python exception escaping the notebook's code. -/
inductive PyError where
  | typeError
  | keyError
  | indexError
deriving DecidableEq

/-- One of the two bound methods the `operation` dict maps to. -/
inductive MCPMethod where
  | list_tools
  | execute_tool
deriving DecidableEq

/-- The `MCP_client` object: its `server_params` attribute and its
`operation` dict (keys in insertion order, values the bound methods). -/
structure MCP_client where
  server_params : StdioServerParameters
  operation : List (String × MCPMethod)

/-- `MCP_client.__init__`: store the server parameters and build the
two-entry operation table. -/
def MCP_client.init (sp : StdioServerParameters) : MCP_client :=
  { server_params := sp,
    operation := [("list_tools", MCPMethod.list_tools), ("execute_tool", MCPMethod.execute_tool)] }

/-- `MCP_client.list_tools`: open and initialize a fresh session on the
client's own server parameters, list the tools, and return the tool
documents joined with `",\n"` inside square brackets, paired with the
constant error flag `False`.  The unchanged `self` is returned to make
the method's (absence of) state change explicit. -/
def MCP_client.list_tools (env : StdioServerParameters → MCPServer) (self : MCP_client) :
    (String × Bool) × MCP_client :=
  let session := ClientSession.startup (ClientSession.new (env self.server_params))
  (("[" ++ String.intercalate ",\n" ((session.list_tools).tools.map Tool.model_dump_json) ++ "]",
    false), self)

/-- `MCP_client.execute_tool`: open and initialize a fresh session, call
the tool, and return `(result.content[0].text, result.isError)`.
Indexing an empty content list raises `IndexError`. -/
def MCP_client.execute_tool (env : StdioServerParameters → MCPServer) (self : MCP_client)
    (tool_name tool_parameters : JValue) : Except PyError ((String × Bool) × MCP_client) :=
  let session := ClientSession.startup (ClientSession.new (env self.server_params))
  match (session.call_tool tool_name tool_parameters).content with
  | [] => Except.error PyError.indexError
  | t :: _ =>
    Except.ok ((t, (session.call_tool tool_name tool_parameters).isError), self)

/-- The notebook's global objects. -/
def server_params : StdioServerParameters :=
  { command := "python", args := ["/home/ec2-user/SageMaker/weather_server.py"] }

/-- `weather_client = MCP_client(server_params)`. -/
def weather_client : MCP_client := MCP_client.init server_params

/-- `self.operation[op](**kwargs)`: calling the bound method with the
keyword arguments collected from the request.  Python's call semantics
raise `TypeError` when `list_tools` receives any keyword argument or
`execute_tool` misses a required one. -/
def callMethod (env : StdioServerParameters → MCPServer) (self : MCP_client) :
    MCPMethod → Option JValue → Option JValue → Except PyError ((String × Bool) × MCP_client)
  | MCPMethod.list_tools, none, none => Except.ok (self.list_tools env)
  | MCPMethod.list_tools, _, _ => Except.error PyError.typeError
  | MCPMethod.execute_tool, some nm, some ps => self.execute_tool env nm ps
  | MCPMethod.execute_tool, _, _ => Except.error PyError.typeError

/-- The dict `handle_llm_response` returns: `\x7b"AI": msg\x7d` or
`\x7b"Tool": msg, "call_id": id\x7d`. -/
inductive HandleResult where
  | AI (content : String)
  | Tool (content : String) (call_id : Nat)

/-- The error string of the notebook's unknown-operation branch. -/
def noSuchOperationMsg : String :=
  "NoSuchOperationError: Operation not supported. Did you mean to use execute_tool operation with tool_name? reformat your JSON correctly and try again."

/-- The notebook's `handle_llm_response`.  `tool_call_id` stands for the
`uuid.uuid4()` value.  Faithful to Python evaluation order:
  * a truthy `inputMessage` returns an AI result;
  * otherwise `tool_use["operation"]` is read: on the empty-string
    `tool_use` this raises `TypeError` (string indices must be integers),
    and a missing key would raise `KeyError`;
  * the `in weather_client.operation` membership test hashes the value:
    an unhashable value (list/dict) raises `TypeError`;
  * a matching key calls the bound method with the keyword arguments
    whose keys are present in the request;
  * a result with `isError` set is returned with an `"Error: "` text
    prefix, otherwise as is;
  * a non-matching hashable value returns the NoSuchOperationError
    message.
The (unchanged) client is returned alongside to make state explicit. -/
def handle_llm_response (env : StdioServerParameters → MCPServer) (tool_call_id : Nat)
    (response : String) : Except PyError (HandleResult × MCP_client) :=
  if (is_tool_use response).inputMessage ≠ "" then
    Except.ok (HandleResult.AI (is_tool_use response).inputMessage, weather_client)
  else
    match (is_tool_use response).tool_use with
    | none => Except.error PyError.typeError
    | some tu =>
      match tu.dictGet "operation" with
      | none => Except.error PyError.keyError
      | some opv =>
        if opv.pyHashable = false then Except.error PyError.typeError
        else
          match weather_client.operation.find? (fun kv => opv.isStrEq kv.1) with
          | none => Except.ok (HandleResult.Tool noSuchOperationMsg tool_call_id, weather_client)
          | some kv =>
            match callMethod env weather_client kv.2 (tu.dictGet "tool_name")
                (tu.dictGet "tool_parameters") with
            | Except.error e => Except.error e
            | Except.ok ((text, isErr), c) =>
              if isErr then Except.ok (HandleResult.Tool ("Error: " ++ text) tool_call_id, c)
              else Except.ok (HandleResult.Tool text tool_call_id, c)

/-!
## The invocation loop

`while not AI_responded:` — each iteration obtains a model reply,
appends it as an `"ai"` message, runs `handle_llm_response`, and either
sets `AI_responded` (an `"AI"` result) or appends the tool output as a
`"user"` message and keeps `tool_response`.
-/

/-- An entry of the `messages` chat history list. -/
structure ChatMessage where
  role : String
  content : String

/-- `messages.append(\x7b"role": "ai", "content": response\x7d)`. -/
def aiMessage (content : String) : ChatMessage :=
  { role := "ai", content := content }

/-- `messages.append(\x7b"role": "user", "content": result["Tool"]\x7d)`. -/
def userMessage (content : String) : ChatMessage :=
  { role := "user", content := content }

/-- The loop's mutable state: the `messages` list and `tool_response`. -/
structure LoopState where
  messages : List ChatMessage
  tool_response : String

/-- One iteration of the invoke loop, given the reply `response` the
chain produced: the new state and the value of `AI_responded` after the
iteration. -/
def loopStep (env : StdioServerParameters → MCPServer) (tool_call_id : Nat)
    (st : LoopState) (response : String) : Except PyError (LoopState × Bool) :=
  match handle_llm_response env tool_call_id response with
  | Except.error e => Except.error e
  | Except.ok (HandleResult.AI _, _) =>
    Except.ok ({ st with messages := st.messages ++ [aiMessage response] }, true)
  | Except.ok (HandleResult.Tool t _, _) =>
    Except.ok ({ messages := st.messages ++ [aiMessage response, userMessage t],
                 tool_response := t }, false)

/-- The whole loop, driven by the (finite, modelled) stream of replies
the model would produce: runs iterations until one sets `AI_responded`
(`true` in the result), the replies run out (`false`: the loop is still
going), or an iteration raises. -/
def runLoop (env : StdioServerParameters → MCPServer) (tool_call_id : Nat) :
    List String → LoopState → Except PyError (LoopState × Bool)
  | [], st => Except.ok (st, false)
  | r :: rs, st =>
    match loopStep env tool_call_id st r with
    | Except.error e => Except.error e
    | Except.ok (st2, true) => Except.ok (st2, true)
    | Except.ok (st2, false) => runLoop env tool_call_id rs st2

/-- Whether a reply is (by the notebook's own checker) a JSON reply whose
object carries an `"operation"` key — the condition under which the loop
really continues. -/
def isJsonWithOperation (s : String) : Bool :=
  match (is_valid_json s).parsedJson with
  | some pj => pj.hasKey "operation"
  | none => false

/-!
## Basic lemmas about the classification helpers
-/

/-- `is_valid_json` reports `isJSON` exactly when it carries a parsed
value. -/
theorem is_valid_json_isJSON_isSome (s : String) :
    (is_valid_json s).isJSON = ((is_valid_json s).parsedJson).isSome := by
  unfold is_valid_json
  split
  · rfl
  · split <;> rfl

/-- Full case analysis of `is_tool_use`: a reply is a final-answer
message exactly when it is not JSON-with-operation, and a tool use
exactly when it is. -/
theorem is_tool_use_spec (s : String) :
    (is_tool_use s = { tool_use := none, inputMessage := s } ∧ isJsonWithOperation s = false)
  ∨ (∃ pj, is_tool_use s = { tool_use := some pj, inputMessage := "" }
       ∧ (is_valid_json s).parsedJson = some pj ∧ pj.hasKey "operation" = true
       ∧ isJsonWithOperation s = true) := by
  have hb := is_valid_json_isJSON_isSome s
  unfold is_tool_use isJsonWithOperation
  rcases hv : is_valid_json s with ⟨b, p⟩
  rw [hv] at hb
  simp only at hb
  cases p with
  | none =>
    cases b
    · exact Or.inl ⟨rfl, rfl⟩
    · simp at hb
  | some pj =>
    cases b
    · simp at hb
    · by_cases hk : pj.hasKey "operation" = true
      · exact Or.inr ⟨pj, by simp [hk], rfl, hk, by simp [hk]⟩
      · refine Or.inl ⟨by simp [hk], ?_⟩
        simp only [Bool.not_eq_true] at hk
        simp [hk]

/-- A tool-use classification pins down the whole record and the parsed
object behind it. -/
theorem is_tool_use_some (s : String) (pj : JValue)
    (h : (is_tool_use s).tool_use = some pj) :
    is_tool_use s = { tool_use := some pj, inputMessage := "" }
    ∧ (is_valid_json s).parsedJson = some pj
    ∧ pj.hasKey "operation" = true
    ∧ isJsonWithOperation s = true := by
  rcases is_tool_use_spec s with ⟨h1, _⟩ | ⟨pj2, h1, h2, h3, h4⟩
  · rw [h1] at h
    simp at h
  · rw [h1] at h
    simp only [Option.some.injEq] at h
    subst h
    exact ⟨h1, h2, h3, h4⟩

/-- Tool-use classification is exactly `isJsonWithOperation`. -/
theorem is_tool_use_none_iff (s : String) :
    (is_tool_use s).tool_use = none ↔ isJsonWithOperation s = false := by
  rcases is_tool_use_spec s with ⟨h1, h2⟩ | ⟨pj, h1, _, _, h4⟩
  · rw [h1, h2]
    simp
  · rw [h1, h4]
    simp

/-!
## Evaluation lemmas for `handle_llm_response` and the loop
-/

/-- A reply whose classification keeps the whole input as the message is
answered with an AI result (the final-answer branch). -/
theorem handle_AI (env : StdioServerParameters → MCPServer) (u : Nat) (s : String)
    (h1 : (is_tool_use s).inputMessage = s) (h2 : s ≠ "") :
    handle_llm_response env u s = Except.ok (HandleResult.AI s, weather_client) := by
  unfold handle_llm_response
  rw [h1, if_pos h2]

/-- On a tool-use reply, `handle_llm_response` equals the dispatch
expression over the parsed object. -/
theorem handle_tool_use_eq (env : StdioServerParameters → MCPServer) (u : Nat)
    (s : String) (pj : JValue) (h : (is_tool_use s).tool_use = some pj) :
    handle_llm_response env u s =
      (match pj.dictGet "operation" with
       | none => Except.error PyError.keyError
       | some opv =>
         if opv.pyHashable = false then Except.error PyError.typeError
         else
           match weather_client.operation.find? (fun kv => opv.isStrEq kv.1) with
           | none => Except.ok (HandleResult.Tool noSuchOperationMsg u, weather_client)
           | some kv =>
             match callMethod env weather_client kv.2 (pj.dictGet "tool_name")
                 (pj.dictGet "tool_parameters") with
             | Except.error e => Except.error e
             | Except.ok ((text, isErr), c) =>
               if isErr then Except.ok (HandleResult.Tool ("Error: " ++ text) u, c)
               else Except.ok (HandleResult.Tool text u, c)) := by
  obtain ⟨hrec, -, -, -⟩ := is_tool_use_some s pj h
  unfold handle_llm_response
  rw [hrec]
  simp

/-- `find?` over the two-entry operation table. -/
theorem find_op_table (opv : JValue) :
    weather_client.operation.find? (fun kv => opv.isStrEq kv.1) =
      (if opv.isStrEq "list_tools" then some ("list_tools", MCPMethod.list_tools)
       else if opv.isStrEq "execute_tool" then some ("execute_tool", MCPMethod.execute_tool)
       else none) := by
  show List.find? _ [("list_tools", MCPMethod.list_tools), ("execute_tool", MCPMethod.execute_tool)] = _
  by_cases h1 : opv.isStrEq "list_tools" = true
  · simp [List.find?, h1]
  · simp only [Bool.not_eq_true] at h1
    by_cases h2 : opv.isStrEq "execute_tool" = true
    · simp [List.find?, h1, h2]
    · simp only [Bool.not_eq_true] at h2
      simp [List.find?, h1, h2]

/-- `handle_llm_response` never yields an AI result on a tool-use
reply. -/
theorem handle_no_AI_of_tool_use (env : StdioServerParameters → MCPServer) (u : Nat)
    (s : String) (pj : JValue) (h : (is_tool_use s).tool_use = some pj) :
    ∀ m c, handle_llm_response env u s ≠ Except.ok (HandleResult.AI m, c) := by
  intro m c hcontra
  rw [handle_tool_use_eq env u s pj h] at hcontra
  repeat' split at hcontra
  all_goals simp at hcontra

/-- The loop iteration can only set `AI_responded` through an AI result;
on a tool-use reply it never does. -/
theorem loopStep_no_true_of_tool_use (env : StdioServerParameters → MCPServer) (u : Nat)
    (st : LoopState) (s : String) (pj : JValue)
    (h : (is_tool_use s).tool_use = some pj) :
    ∀ st2, loopStep env u st s ≠ Except.ok (st2, true) := by
  intro st2 hcontra
  unfold loopStep at hcontra
  cases hh : handle_llm_response env u s with
  | error e => rw [hh] at hcontra; simp at hcontra
  | ok rc =>
    obtain ⟨r, c⟩ := rc
    cases r with
    | AI m => exact handle_no_AI_of_tool_use env u s pj h m c hh
    | Tool t i =>
      rw [hh] at hcontra
      simp at hcontra

/-- A final-answer reply's loop iteration: the reply is appended as an
`"ai"` message and `AI_responded` is set. -/
theorem loopStep_AI (env : StdioServerParameters → MCPServer) (u : Nat)
    (st : LoopState) (s : String)
    (h1 : (is_tool_use s).inputMessage = s) (h2 : s ≠ "") :
    loopStep env u st s =
      Except.ok ({ messages := st.messages ++ [aiMessage s],
                   tool_response := st.tool_response }, true) := by
  unfold loopStep
  rw [handle_AI env u s h1 h2]

/-- A Tool result's loop iteration: the reply and the tool output are
appended and the loop continues. -/
theorem loopStep_Tool (env : StdioServerParameters → MCPServer) (u : Nat)
    (st : LoopState) (s t : String) (i : Nat) (c : MCP_client)
    (h : handle_llm_response env u s = Except.ok (HandleResult.Tool t i, c)) :
    loopStep env u st s =
      Except.ok ({ messages := st.messages ++ [aiMessage s, userMessage t],
                   tool_response := t }, false) := by
  unfold loopStep
  rw [h]

/-!
## The claims
-/

/-- C9: `handle_llm_response` is not total on the empty reply: the
classifier returns both fields empty, and the handler raises (`""` is
indexed with the key `"operation"`, a `TypeError` in Python) instead of
returning an AI or Tool result. -/
theorem C9_empty_reply_raises :
    is_tool_use "" = { tool_use := none, inputMessage := "" }
  ∧ ∀ env u, handle_llm_response env u "" = Except.error PyError.typeError :=
  ⟨rfl, fun _ _ => rfl⟩

/-- C10: a JSON reply requesting `execute_tool` but missing `tool_name`
(or `tool_parameters`) calls the method without its required arguments,
raising `TypeError` instead of feeding an error message back. -/
theorem C10_missing_args_raise (env : StdioServerParameters → MCPServer) (u : Nat)
    (response : String) (pj : JValue)
    (h1 : (is_tool_use response).tool_use = some pj)
    (h2 : pj.dictGet "operation" = some (JValue.str "execute_tool"))
    (h3 : pj.dictGet "tool_name" = none ∨ pj.dictGet "tool_parameters" = none) :
    handle_llm_response env u response = Except.error PyError.typeError := by
  rw [handle_tool_use_eq env u response pj h1, h2]
  rcases h3 with h3 | h3
  · rcases hp : pj.dictGet "tool_parameters" with _ | v <;>
      simp [JValue.pyHashable, JValue.isStrEq, weather_client, MCP_client.init,
        List.find?, h3, hp, callMethod]
  · rcases hn : pj.dictGet "tool_name" with _ | v <;>
      simp [JValue.pyHashable, JValue.isStrEq, weather_client, MCP_client.init,
        List.find?, h3, hn, callMethod]

/-- Evaluation of `MCP_client.list_tools`. -/
theorem list_tools_eval (env : StdioServerParameters → MCPServer) (c : MCP_client) :
    MCP_client.list_tools env c =
      (("[" ++ String.intercalate ",\n" ((env c.server_params).tools.map Tool.model_dump_json)
          ++ "]", false), c) := rfl

/-- Evaluation of `MCP_client.execute_tool` when the server's result has
at least one content item. -/
theorem execute_tool_eval (env : StdioServerParameters → MCPServer) (c : MCP_client)
    (nm ps : JValue) (txt : String) (rest : List String) (flag : Bool)
    (h : (env c.server_params).call_tool nm ps = { content := txt :: rest, isError := flag }) :
    MCP_client.execute_tool env c nm ps = Except.ok ((txt, flag), c) := by
  simp [MCP_client.execute_tool, ClientSession.call_tool, ClientSession.startup,
    ClientSession.new, h]

/-- The two possible outcomes of `MCP_client.execute_tool`. -/
theorem execute_tool_cases (env : StdioServerParameters → MCPServer) (c : MCP_client)
    (nm ps : JValue) :
    (MCP_client.execute_tool env c nm ps = Except.error PyError.indexError
       ∧ ((env c.server_params).call_tool nm ps).content = [])
  ∨ (∃ t ts, ((env c.server_params).call_tool nm ps).content = t :: ts
       ∧ MCP_client.execute_tool env c nm ps
           = Except.ok ((t, ((env c.server_params).call_tool nm ps).isError), c)) := by
  rcases hcon : ((env c.server_params).call_tool nm ps).content with _ | ⟨t, ts⟩
  · refine Or.inl ⟨?_, rfl⟩
    simp [MCP_client.execute_tool, ClientSession.call_tool, ClientSession.startup,
      ClientSession.new, hcon]
  · refine Or.inr ⟨t, ts, rfl, ?_⟩
    simp [MCP_client.execute_tool, ClientSession.call_tool, ClientSession.startup,
      ClientSession.new, hcon]

/-- On a tool-use reply with a hashable operation value,
`handle_llm_response` equals the table dispatch expression. -/
theorem handle_dispatch_eq (env : StdioServerParameters → MCPServer) (u : Nat)
    (response : String) (pj opv : JValue)
    (h1 : (is_tool_use response).tool_use = some pj)
    (h2 : pj.dictGet "operation" = some opv)
    (hhash : opv.pyHashable = true) :
    handle_llm_response env u response =
      (match weather_client.operation.find? (fun kv => opv.isStrEq kv.1) with
       | none => Except.ok (HandleResult.Tool noSuchOperationMsg u, weather_client)
       | some kv =>
         match callMethod env weather_client kv.2 (pj.dictGet "tool_name")
             (pj.dictGet "tool_parameters") with
         | Except.error e => Except.error e
         | Except.ok ((text, isErr), c) =>
           if isErr then Except.ok (HandleResult.Tool ("Error: " ++ text) u, c)
           else Except.ok (HandleResult.Tool text u, c)) := by
  rw [handle_tool_use_eq env u response pj h1, h2]
  simp [hhash]

/-- Dispatch of a well-formed `list_tools` request. -/
theorem handle_list_tools_eq (env : StdioServerParameters → MCPServer) (u : Nat)
    (response : String) (pj : JValue)
    (h1 : (is_tool_use response).tool_use = some pj)
    (h2 : pj.dictGet "operation" = some (JValue.str "list_tools"))
    (h3 : pj.dictGet "tool_name" = none)
    (h4 : pj.dictGet "tool_parameters" = none) :
    handle_llm_response env u response =
      Except.ok (HandleResult.Tool ((MCP_client.list_tools env weather_client).1.1) u,
        weather_client) := by
  rw [handle_tool_use_eq env u response pj h1, h2]
  simp [JValue.pyHashable, JValue.isStrEq, weather_client, MCP_client.init, List.find?,
    h3, h4, callMethod, MCP_client.list_tools]

/-- Dispatch of a well-formed `execute_tool` request: the handler's
result is the method's, with the `"Error: "` prefix applied when the
error flag is set. -/
theorem handle_execute_eq (env : StdioServerParameters → MCPServer) (u : Nat)
    (response : String) (pj nm ps : JValue)
    (h1 : (is_tool_use response).tool_use = some pj)
    (h2 : pj.dictGet "operation" = some (JValue.str "execute_tool"))
    (h3 : pj.dictGet "tool_name" = some nm)
    (h4 : pj.dictGet "tool_parameters" = some ps) :
    handle_llm_response env u response =
      (MCP_client.execute_tool env weather_client nm ps).map
        (fun rc => (HandleResult.Tool (if rc.1.2 then "Error: " ++ rc.1.1 else rc.1.1) u,
          rc.2)) := by
  have hd := handle_dispatch_eq env u response pj (JValue.str "execute_tool") h1 h2
    (by simp [JValue.pyHashable])
  rw [find_op_table] at hd
  simp only [JValue.isStrEq, String.reduceEq, decide_False, decide_True, Bool.false_eq_true,
    if_false, if_true, h3, h4, callMethod] at hd
  rcases hc : MCP_client.execute_tool env weather_client nm ps with e | ⟨⟨text, isErr⟩, c⟩
  · rw [hc] at hd
    rw [hd]
    rfl
  · rw [hc] at hd
    rw [hd]
    cases isErr <;> simp [Except.map]

/-- C4: a dispatched tool call whose result carries the error flag is
returned as a Tool message prefixed with `"Error: "`; the client state
is unchanged and the loop continues (the error is fed back, it does not
terminate the loop). -/
theorem C4_error_flag_feedback (env : StdioServerParameters → MCPServer) (u : Nat)
    (st : LoopState) (response : String) (pj nm ps : JValue)
    (txt : String) (rest : List String)
    (h1 : (is_tool_use response).tool_use = some pj)
    (h2 : pj.dictGet "operation" = some (JValue.str "execute_tool"))
    (h3 : pj.dictGet "tool_name" = some nm)
    (h4 : pj.dictGet "tool_parameters" = some ps)
    (h5 : (env weather_client.server_params).call_tool nm ps
            = { content := txt :: rest, isError := true }) :
    handle_llm_response env u response
      = Except.ok (HandleResult.Tool ("Error: " ++ txt) u, weather_client)
  ∧ loopStep env u st response
      = Except.ok ({ messages := st.messages ++ [aiMessage response,
                       userMessage ("Error: " ++ txt)],
                     tool_response := "Error: " ++ txt }, false) := by
  have hex : MCP_client.execute_tool env weather_client nm ps
      = Except.ok ((txt, true), weather_client) :=
    execute_tool_eval env weather_client nm ps txt rest true h5
  have hh := handle_execute_eq env u response pj nm ps h1 h2 h3 h4
  rw [hex] at hh
  simp only [Except.map, if_true] at hh
  exact ⟨hh, loopStep_Tool env u st response ("Error: " ++ txt) u weather_client hh⟩

/-- C6: neither `list_tools` nor `execute_tool` mutates the client:
the returned `self` is the argument itself (so `server_params` and the
operation table are unchanged), and the results depend only on the
client's `server_params` — no state is carried from one call to the
next, each call opening and initializing a fresh session. -/
theorem C6_no_mutation (env : StdioServerParameters → MCPServer) (c c2 : MCP_client)
    (nm ps : JValue) (h : c.server_params = c2.server_params) :
    (MCP_client.list_tools env c).2 = c
  ∧ ((MCP_client.list_tools env c).2).server_params = c.server_params
  ∧ ((MCP_client.list_tools env c).2).operation = c.operation
  ∧ (∀ r c', MCP_client.execute_tool env c nm ps = Except.ok (r, c') → c' = c)
  ∧ (MCP_client.list_tools env c).1 = (MCP_client.list_tools env c2).1
  ∧ (∀ r c', MCP_client.execute_tool env c nm ps = Except.ok (r, c') →
       MCP_client.execute_tool env c2 nm ps = Except.ok (r, c2))
  ∧ (∀ e, MCP_client.execute_tool env c nm ps = Except.error e →
       MCP_client.execute_tool env c2 nm ps = Except.error e) := by
  refine ⟨rfl, rfl, rfl, ?_, ?_, ?_, ?_⟩
  · intro r c' hr
    rcases execute_tool_cases env c nm ps with ⟨he, -⟩ | ⟨t, ts, -, he⟩ <;> rw [he] at hr
    · exact absurd hr (by simp)
    · simp only [Except.ok.injEq, Prod.mk.injEq] at hr
      exact hr.2.symm
  · rw [list_tools_eval, list_tools_eval, h]
  · intro r c' hr
    rcases execute_tool_cases env c nm ps with ⟨he, -⟩ | ⟨t, ts, hcon, he⟩ <;> rw [he] at hr
    · exact absurd hr (by simp)
    · simp only [Except.ok.injEq, Prod.mk.injEq] at hr
      obtain ⟨hr1, -⟩ := hr
      subst hr1
      rcases execute_tool_cases env c2 nm ps with ⟨-, hcon2⟩ | ⟨t2, ts2, hcon2, he2⟩
      · rw [← h] at hcon2
        rw [hcon] at hcon2
        simp at hcon2
      · rw [← h] at hcon2 he2
        rw [hcon] at hcon2
        simp only [List.cons.injEq] at hcon2
        rw [he2, hcon2.1]
  · intro e hr
    rcases execute_tool_cases env c nm ps with ⟨he, hcon⟩ | ⟨t, ts, -, he⟩ <;> rw [he] at hr
    · rcases execute_tool_cases env c2 nm ps with ⟨he2, -⟩ | ⟨t2, ts2, hcon2, -⟩
      · rw [he2]
        exact hr
      · rw [← h] at hcon2
        rw [hcon] at hcon2
        simp at hcon2
    · exact absurd hr (by simp)

/-- C7: `list_tools` returns the tool documents joined with `",\n"`
wrapped in square brackets, always paired with error flag `False`;
`execute_tool` returns the first content item's text paired with the
server's error flag. -/
theorem C7_return_values (env : StdioServerParameters → MCPServer) (c : MCP_client)
    (nm ps : JValue) (txt : String) (rest : List String) (flag : Bool)
    (h : (env c.server_params).call_tool nm ps = { content := txt :: rest, isError := flag }) :
    MCP_client.list_tools env c
      = (("[" ++ String.intercalate ",\n"
            ((env c.server_params).tools.map Tool.model_dump_json) ++ "]", false), c)
  ∧ MCP_client.execute_tool env c nm ps = Except.ok ((txt, flag), c) :=
  ⟨list_tools_eval env c, execute_tool_eval env c nm ps txt rest flag h⟩

/-- C1 (amended): for a non-empty reply, the iteration sets
`AI_responded` exactly when the reply is not a JSON reply carrying an
`"operation"` key; in that case the whole loop terminates with the reply
as the final answer, whatever replies would follow. -/
theorem C1_termination_iff (env : StdioServerParameters → MCPServer) (u : Nat)
    (st : LoopState) (response : String) (h : response ≠ "") :
    (loopStep env u st response =
        Except.ok ({ messages := st.messages ++ [aiMessage response],
                     tool_response := st.tool_response }, true)
      ↔ isJsonWithOperation response = false)
  ∧ (isJsonWithOperation response = false →
      ∀ rest, runLoop env u (response :: rest) st =
        Except.ok ({ messages := st.messages ++ [aiMessage response],
                     tool_response := st.tool_response }, true)) := by
  have hstep : isJsonWithOperation response = false →
      loopStep env u st response =
        Except.ok ({ messages := st.messages ++ [aiMessage response],
                     tool_response := st.tool_response }, true) := by
    intro hop
    have hn : (is_tool_use response).tool_use = none := (is_tool_use_none_iff response).mpr hop
    rcases is_tool_use_spec response with ⟨h1, -⟩ | ⟨pj, h1, -, -, -⟩
    · exact loopStep_AI env u st response (by rw [h1]) h
    · rw [h1] at hn
      simp at hn
  refine ⟨⟨?_, hstep⟩, ?_⟩
  · intro hl
    by_contra hop
    rw [Bool.not_eq_false] at hop
    have hne : (is_tool_use response).tool_use ≠ none := by
      intro hx
      rw [is_tool_use_none_iff] at hx
      rw [hx] at hop
      exact Bool.false_ne_true hop
    rcases hx : (is_tool_use response).tool_use with _ | pj
    · exact hne hx
    · exact loopStep_no_true_of_tool_use env u st response pj hx _ hl
  · intro hop rest
    unfold runLoop
    rw [hstep hop]

/-- C2 (amended): a non-empty reply is classified as exactly one of a
tool-invocation request (a JSON object with an `"operation"` key) or a
final answer; a final answer terminates the loop with the reply itself;
any Tool result is appended as a user-role message and the loop
continues; and a request naming a supported operation with exactly its
required arguments dispatches that operation, its result becoming the
Tool message. -/
theorem C2_classify_dispatch (env : StdioServerParameters → MCPServer) (u : Nat)
    (st : LoopState) (response : String) (h : response ≠ "") :
    ((is_tool_use response).tool_use = none ∧ (is_tool_use response).inputMessage = response
      ∨ ∃ pj, (is_tool_use response).tool_use = some pj
          ∧ (is_tool_use response).inputMessage = "" ∧ pj.hasKey "operation" = true)
  ∧ ((is_tool_use response).inputMessage = response →
       loopStep env u st response
         = Except.ok ({ messages := st.messages ++ [aiMessage response],
                        tool_response := st.tool_response }, true))
  ∧ (∀ t i c, handle_llm_response env u response = Except.ok (HandleResult.Tool t i, c) →
       loopStep env u st response
         = Except.ok ({ messages := st.messages ++ [aiMessage response, userMessage t],
                        tool_response := t }, false))
  ∧ (∀ pj, (is_tool_use response).tool_use = some pj →
       (pj.dictGet "operation" = some (JValue.str "list_tools") →
        pj.dictGet "tool_name" = none → pj.dictGet "tool_parameters" = none →
          handle_llm_response env u response
            = Except.ok (HandleResult.Tool ((MCP_client.list_tools env weather_client).1.1) u,
                weather_client))
     ∧ (∀ nm ps, pj.dictGet "operation" = some (JValue.str "execute_tool") →
          pj.dictGet "tool_name" = some nm → pj.dictGet "tool_parameters" = some ps →
          handle_llm_response env u response
            = (MCP_client.execute_tool env weather_client nm ps).map
                (fun rc => (HandleResult.Tool
                  (if rc.1.2 then "Error: " ++ rc.1.1 else rc.1.1) u, rc.2)))) := by
  refine ⟨?_, ?_, ?_, ?_⟩
  · rcases is_tool_use_spec response with ⟨h1, -⟩ | ⟨pj, h1, -, h3, -⟩
    · exact Or.inl ⟨by rw [h1], by rw [h1]⟩
    · exact Or.inr ⟨pj, by rw [h1], by rw [h1], h3⟩
  · intro hm
    exact loopStep_AI env u st response hm h
  · intro t i c hh
    exact loopStep_Tool env u st response t i c hh
  · intro pj hpj
    exact ⟨fun h2 h3 h4 => handle_list_tools_eq env u response pj hpj h2 h3 h4,
           fun nm ps h2 h3 h4 => handle_execute_eq env u response pj nm ps hpj h2 h3 h4⟩

/-- C3: the operation table built by `__init__` has exactly the two
entries `list_tools` and `execute_tool` mapped to the client's methods,
and a request whose operation value matches neither key is never
dispatched: the handler returns the fixed NoSuchOperationError message
(or raises on an unhashable value) without calling any method. -/
theorem C3_dispatch_table (sp : StdioServerParameters) (env : StdioServerParameters → MCPServer)
    (u : Nat) (response : String) (pj opv nm ps : JValue)
    (h1 : (is_tool_use response).tool_use = some pj)
    (h2 : pj.dictGet "operation" = some opv)
    (h3 : opv.isStrEq "list_tools" = false)
    (h4 : opv.isStrEq "execute_tool" = false) :
    (MCP_client.init sp).operation
      = [("list_tools", MCPMethod.list_tools), ("execute_tool", MCPMethod.execute_tool)]
  ∧ callMethod env (MCP_client.init sp) MCPMethod.list_tools none none
      = Except.ok ((MCP_client.init sp).list_tools env)
  ∧ callMethod env (MCP_client.init sp) MCPMethod.execute_tool (some nm) (some ps)
      = (MCP_client.init sp).execute_tool env nm ps
  ∧ (handle_llm_response env u response
       = Except.ok (HandleResult.Tool noSuchOperationMsg u, weather_client)
     ∨ handle_llm_response env u response = Except.error PyError.typeError) := by
  refine ⟨rfl, rfl, rfl, ?_⟩
  by_cases hh : opv.pyHashable = true
  · left
    rw [handle_dispatch_eq env u response pj opv h1 h2 hh, find_op_table]
    simp [h3, h4]
  · right
    rw [handle_tool_use_eq env u response pj h1, h2]
    simp only [Bool.not_eq_true] at hh
    simp [hh]

/-- C5 (amended): a JSON reply whose hashable `"operation"` value is
neither supported key yields the NoSuchOperationError Tool message, no
operation is invoked, and the loop feeds the message back and
continues. -/
theorem C5_unknown_operation (env : StdioServerParameters → MCPServer) (u : Nat)
    (st : LoopState) (response : String) (pj opv : JValue)
    (h1 : (is_tool_use response).tool_use = some pj)
    (h2 : pj.dictGet "operation" = some opv)
    (h3 : opv.pyHashable = true)
    (h4 : opv.isStrEq "list_tools" = false)
    (h5 : opv.isStrEq "execute_tool" = false) :
    handle_llm_response env u response
      = Except.ok (HandleResult.Tool noSuchOperationMsg u, weather_client)
  ∧ loopStep env u st response
      = Except.ok ({ messages := st.messages ++ [aiMessage response,
                       userMessage noSuchOperationMsg],
                     tool_response := noSuchOperationMsg }, false) := by
  have hh : handle_llm_response env u response
      = Except.ok (HandleResult.Tool noSuchOperationMsg u, weather_client) := by
    rw [handle_dispatch_eq env u response pj opv h1 h2 h3, find_op_table]
    simp [h4, h5]
  exact ⟨hh, loopStep_Tool env u st response noSuchOperationMsg u weather_client hh⟩

/-!
## C8: characterising `is_valid_json`
-/

/-- `lastBraceSplit` fails exactly on input without a closing brace. -/
theorem lastBraceSplit_none_iff (cs : List Char) :
    lastBraceSplit cs = none ↔ rbrace ∉ cs := by
  induction cs with
  | nil => simp [lastBraceSplit]
  | cons c rest ih =>
    simp only [lastBraceSplit]
    cases hr : lastBraceSplit rest with
    | some t =>
      have hin : rbrace ∈ rest := by
        by_contra hmem
        rw [ih.mpr hmem] at hr
        exact Option.noConfusion hr
      simp [List.mem_cons, hin]
    | none =>
      by_cases hc : c = rbrace
      · simp [hc]
      · simp [hc, ih.mp hr, Ne.symm hc]

/-- `lastBraceSplit` succeeds exactly with the content before the last
closing brace. -/
theorem lastBraceSplit_some_iff (cs t : List Char) :
    lastBraceSplit cs = some t ↔ ∃ s, cs = t ++ rbrace :: s ∧ rbrace ∉ s := by
  induction cs generalizing t with
  | nil =>
    simp [lastBraceSplit]
  | cons c rest ih =>
    simp only [lastBraceSplit]
    cases hr : lastBraceSplit rest with
    | some t2 =>
      constructor
      · intro hx
        simp only [Option.some.injEq] at hx
        subst hx
        obtain ⟨s, hs, hns⟩ := (ih t2).mp hr
        exact ⟨s, by simp [hs], hns⟩
      · rintro ⟨s, hs, hns⟩
        cases t with
        | nil =>
          simp only [List.nil_append, List.cons.injEq] at hs
          exfalso
          have hin : rbrace ∈ rest := by
            by_contra hmem
            rw [(lastBraceSplit_none_iff rest).mpr hmem] at hr
            exact Option.noConfusion hr
          rw [← hs.2] at hns
          exact hns hin
        | cons t0 ts =>
          simp only [List.cons_append, List.cons.injEq] at hs
          obtain ⟨hc0, hrs⟩ := hs
          have h2 := (ih ts).mpr ⟨s, hrs, hns⟩
          rw [h2] at hr
          simp only [Option.some.injEq] at hr
          rw [hc0, hr]
    | none =>
      have hnr : rbrace ∉ rest := (lastBraceSplit_none_iff rest).mp hr
      by_cases hc : c = rbrace
      · rw [if_pos hc]
        constructor
        · intro hx
          simp only [Option.some.injEq] at hx
          subst hx
          exact ⟨rest, by simp [hc], hnr⟩
        · rintro ⟨s, hs, hns⟩
          cases t with
          | nil => rfl
          | cons t0 ts =>
            simp only [List.cons_append, List.cons.injEq] at hs
            exfalso
            exact hnr (by rw [hs.2]; simp)
      · rw [if_neg hc]
        constructor
        · intro hx
          exact Option.noConfusion hx
        · rintro ⟨s, hs, hns⟩
          exfalso
          cases t with
          | nil =>
            simp only [List.nil_append, List.cons.injEq] at hs
            exact hc hs.1
          | cons t0 ts =>
            simp only [List.cons_append, List.cons.injEq] at hs
            exact hnr (by rw [hs.2]; simp)

/-- The regular-expression model: `braceSpan` succeeds exactly with the
content strictly between the first opening brace and the last closing
brace (which must come after it). -/
theorem braceSpan_some_iff (cs g : List Char) :
    braceSpan cs = some g ↔
      ∃ p s, cs = p ++ lbrace :: (g ++ rbrace :: s) ∧ lbrace ∉ p ∧ rbrace ∉ s := by
  induction cs with
  | nil => simp [braceSpan]
  | cons c rest ih =>
    simp only [braceSpan]
    by_cases hc : c = lbrace
    · rw [if_pos hc, lastBraceSplit_some_iff]
      constructor
      · rintro ⟨s, hs, hns⟩
        exact ⟨[], s, by simp [hc, hs], by simp, hns⟩
      · rintro ⟨p, s, hs, hnp, hns⟩
        cases p with
        | nil =>
          simp only [List.nil_append, List.cons.injEq] at hs
          exact ⟨s, hs.2, hns⟩
        | cons p0 ps =>
          simp only [List.cons_append, List.cons.injEq] at hs
          exfalso
          apply hnp
          rw [← hs.1, ← hc]
          exact List.mem_cons_self c ps
    · rw [if_neg hc, ih]
      constructor
      · rintro ⟨p, s, hs, hnp, hns⟩
        refine ⟨c :: p, s, by simp [hs], ?_, hns⟩
        intro hm
        rcases List.mem_cons.mp hm with hm | hm
        · exact hc hm.symm
        · exact hnp hm
      · rintro ⟨p, s, hs, hnp, hns⟩
        cases p with
        | nil =>
          simp only [List.nil_append, List.cons.injEq] at hs
          exact absurd hs.1 hc
        | cons p0 ps =>
          simp only [List.cons_append, List.cons.injEq] at hs
          refine ⟨ps, s, hs.2, ?_, hns⟩
          intro hm
          exact hnp (List.mem_cons_of_mem p0 hm)

/-- `is_valid_json` succeeds exactly when the brace span exists and its
re-wrapped content parses. -/
theorem is_valid_json_true_iff (text : String) :
    (is_valid_json text).isJSON = true ↔
      ∃ g, braceSpan text.data = some g
        ∧ (json_loads (String.mk (lbrace :: (g ++ [rbrace])))).isSome = true := by
  unfold is_valid_json
  cases hb : braceSpan text.data with
  | none => simp
  | some g =>
    cases hj : json_loads (String.mk (lbrace :: (g ++ [rbrace]))) <;> simp [hj]

/-- The property C8 states, in the claim's own words: the text contains
an opening brace (the first one: none occurs before it) and, after it, a
closing brace (the last one: none occurs after it), and the substring
from that first opening brace to that last closing brace, inclusive,
parses as JSON. -/
def spec_is_json (text : String) : Prop :=
  ∃ p g s, text.data = p ++ lbrace :: (g ++ rbrace :: s)
    ∧ lbrace ∉ p ∧ rbrace ∉ s
    ∧ (json_loads (String.mk (lbrace :: (g ++ [rbrace])))).isSome = true

/-- C8: `is_valid_json` reports JSON exactly when the substring from the
first opening brace to the last closing brace parses; consequently a
JSON object surrounded by prose is classified as JSON, while two
adjacent top-level JSON objects are not. -/
theorem C8_valid_json_characterisation :
    (∀ text : String, (is_valid_json text).isJSON = true ↔ spec_is_json text)
  ∧ (is_valid_json "reply: \x7b\x22a\x22: 1\x7d ok").isJSON = true
  ∧ (is_valid_json "\x7b\x22a\x22: 1\x7d \x7b\x22b\x22: 2\x7d").isJSON = false := by
  refine ⟨?_, rfl, rfl⟩
  intro text
  rw [is_valid_json_true_iff]
  unfold spec_is_json
  constructor
  · rintro ⟨g, hb, hjs⟩
    obtain ⟨p, s, hs, hnp, hns⟩ := (braceSpan_some_iff text.data g).mp hb
    exact ⟨p, g, s, hs, hnp, hns, hjs⟩
  · rintro ⟨p, g, s, hs, hnp, hns, hjs⟩
    exact ⟨g, (braceSpan_some_iff text.data g).mpr ⟨p, s, hs, hnp, hns⟩, hjs⟩

/-!
## Concrete demonstration environments, counterexamples and witnesses
-/

/-- A concrete tool description for demonstrations. -/
def demoTool : Tool := { dump_json := "TOOLDOC" }

/-- A concrete server environment whose tool calls succeed. -/
def envDemo : StdioServerParameters → MCPServer := fun _ =>
  { tools := [demoTool], call_tool := fun _ _ => { content := ["sunny"], isError := false } }

/-- A concrete server environment whose tool calls fail (error flag). -/
def envDemoErr : StdioServerParameters → MCPServer := fun _ =>
  { tools := [demoTool], call_tool := fun _ _ => { content := ["boom"], isError := true } }

/-- The loop's initial state (after system and user message handling,
projected to the modelled fields). -/
def st0 : LoopState := { messages := [], tool_response := "" }

/-- C1 counterexample: this reply parses as JSON (the notebook's own
checker reports `isJSON`), yet the iteration sets `AI_responded` and the
loop terminates with it — a JSON reply does not always cause another
iteration. -/
theorem C1_counterexample :
    (is_valid_json "\x7b\x22a\x22: 1\x7d").isJSON = true
  ∧ loopStep envDemo 0 st0 "\x7b\x22a\x22: 1\x7d"
      = Except.ok ({ messages := [aiMessage "\x7b\x22a\x22: 1\x7d"],
                     tool_response := "" }, true) :=
  ⟨rfl, rfl⟩

/-- C2 counterexample: the empty reply is classified as neither a
tool-invocation request nor a final answer (both fields empty), and
`handle_llm_response` raises instead of producing either result. -/
theorem C2_counterexample :
    (is_tool_use "").tool_use = none ∧ (is_tool_use "").inputMessage = ""
  ∧ handle_llm_response envDemo 0 "" = Except.error PyError.typeError :=
  ⟨rfl, rfl, rfl⟩

/-- C5 counterexample: a JSON reply whose `"operation"` value is neither
`"list_tools"` nor `"execute_tool"` (here an object) makes the handler
raise `TypeError` — the dict membership test hashes the value — rather
than return the NoSuchOperationError Tool message. -/
theorem C5_counterexample :
    (is_valid_json "\x7b\x22operation\x22: \x7b\x7d\x7d").isJSON = true
  ∧ (is_tool_use "\x7b\x22operation\x22: \x7b\x7d\x7d").tool_use
      = some (JValue.obj [("operation", JValue.obj [])])
  ∧ handle_llm_response envDemo 0 "\x7b\x22operation\x22: \x7b\x7d\x7d"
      = Except.error PyError.typeError :=
  ⟨rfl, rfl, rfl⟩

/-- A reply that is a JSON object with an unknown operation. -/
def unknownOpReply : String := "\x7b\x22operation\x22: \x22frobnicate\x22\x7d"

/-- Its parsed value. -/
def unknownOpJson : JValue := JValue.obj [("operation", JValue.str "frobnicate")]

/-- A well-formed `execute_tool` request. -/
def executeReply : String :=
  "\x7b\x22operation\x22: \x22execute_tool\x22, \x22tool_name\x22: \x22w\x22, \x22tool_parameters\x22: \x7b\x7d\x7d"

/-- Its parsed value. -/
def executeJson : JValue :=
  JValue.obj [("operation", JValue.str "execute_tool"), ("tool_name", JValue.str "w"),
    ("tool_parameters", JValue.obj [])]

/-- An `execute_tool` request with no `tool_name`/`tool_parameters`. -/
def bareExecuteReply : String := "\x7b\x22operation\x22: \x22execute_tool\x22\x7d"

/-- Its parsed value. -/
def bareExecuteJson : JValue := JValue.obj [("operation", JValue.str "execute_tool")]

/-- Witness for C1 at the concrete non-JSON reply `"hello"`. -/
theorem C1_witness :
    "hello" ≠ ""
  ∧ ((loopStep envDemo 0 st0 "hello"
        = Except.ok ({ messages := [aiMessage "hello"], tool_response := "" }, true)
      ↔ isJsonWithOperation "hello" = false)
  ∧ (isJsonWithOperation "hello" = false →
      ∀ rest, runLoop envDemo 0 ("hello" :: rest) st0
        = Except.ok ({ messages := [aiMessage "hello"], tool_response := "" }, true))) :=
  ⟨by decide, C1_termination_iff envDemo 0 st0 "hello" (by decide)⟩

/-- Witness for C2 at the concrete non-JSON reply `"hi"`. -/
theorem C2_witness :
    "hi" ≠ ""
  ∧ (((is_tool_use "hi").tool_use = none ∧ (is_tool_use "hi").inputMessage = "hi"
      ∨ ∃ pj, (is_tool_use "hi").tool_use = some pj
          ∧ (is_tool_use "hi").inputMessage = "" ∧ pj.hasKey "operation" = true)
  ∧ ((is_tool_use "hi").inputMessage = "hi" →
       loopStep envDemo 0 st0 "hi"
         = Except.ok ({ messages := [aiMessage "hi"], tool_response := "" }, true))
  ∧ (∀ t i c, handle_llm_response envDemo 0 "hi" = Except.ok (HandleResult.Tool t i, c) →
       loopStep envDemo 0 st0 "hi"
         = Except.ok ({ messages := [aiMessage "hi", userMessage t],
                        tool_response := t }, false))
  ∧ (∀ pj, (is_tool_use "hi").tool_use = some pj →
       (pj.dictGet "operation" = some (JValue.str "list_tools") →
        pj.dictGet "tool_name" = none → pj.dictGet "tool_parameters" = none →
          handle_llm_response envDemo 0 "hi"
            = Except.ok (HandleResult.Tool
                ((MCP_client.list_tools envDemo weather_client).1.1) 0, weather_client))
     ∧ (∀ nm ps, pj.dictGet "operation" = some (JValue.str "execute_tool") →
          pj.dictGet "tool_name" = some nm → pj.dictGet "tool_parameters" = some ps →
          handle_llm_response envDemo 0 "hi"
            = (MCP_client.execute_tool envDemo weather_client nm ps).map
                (fun rc => (HandleResult.Tool
                  (if rc.1.2 then "Error: " ++ rc.1.1 else rc.1.1) 0, rc.2))))) :=
  ⟨by decide, C2_classify_dispatch envDemo 0 st0 "hi" (by decide)⟩

/-- Witness for C3 at a concrete unknown-operation reply. -/
theorem C3_witness :
    (is_tool_use unknownOpReply).tool_use = some unknownOpJson
  ∧ unknownOpJson.dictGet "operation" = some (JValue.str "frobnicate")
  ∧ (JValue.str "frobnicate").isStrEq "list_tools" = false
  ∧ (JValue.str "frobnicate").isStrEq "execute_tool" = false
  ∧ ((MCP_client.init server_params).operation
      = [("list_tools", MCPMethod.list_tools), ("execute_tool", MCPMethod.execute_tool)]
  ∧ callMethod envDemo (MCP_client.init server_params) MCPMethod.list_tools none none
      = Except.ok ((MCP_client.init server_params).list_tools envDemo)
  ∧ callMethod envDemo (MCP_client.init server_params) MCPMethod.execute_tool
      (some JValue.null) (some JValue.null)
      = (MCP_client.init server_params).execute_tool envDemo JValue.null JValue.null
  ∧ (handle_llm_response envDemo 0 unknownOpReply
       = Except.ok (HandleResult.Tool noSuchOperationMsg 0, weather_client)
     ∨ handle_llm_response envDemo 0 unknownOpReply = Except.error PyError.typeError)) :=
  ⟨rfl, rfl, rfl, rfl,
   C3_dispatch_table server_params envDemo 0 unknownOpReply unknownOpJson
     (JValue.str "frobnicate") JValue.null JValue.null rfl rfl rfl rfl⟩

/-- Witness for C4 at a concrete failing `execute_tool` call. -/
theorem C4_witness :
    (is_tool_use executeReply).tool_use = some executeJson
  ∧ executeJson.dictGet "operation" = some (JValue.str "execute_tool")
  ∧ executeJson.dictGet "tool_name" = some (JValue.str "w")
  ∧ executeJson.dictGet "tool_parameters" = some (JValue.obj [])
  ∧ (envDemoErr weather_client.server_params).call_tool (JValue.str "w") (JValue.obj [])
      = { content := ["boom"], isError := true }
  ∧ (handle_llm_response envDemoErr 0 executeReply
       = Except.ok (HandleResult.Tool ("Error: " ++ "boom") 0, weather_client)
  ∧ loopStep envDemoErr 0 st0 executeReply
       = Except.ok ({ messages := [aiMessage executeReply, userMessage ("Error: " ++ "boom")],
                      tool_response := "Error: " ++ "boom" }, false)) :=
  ⟨rfl, rfl, rfl, rfl, rfl,
   C4_error_flag_feedback envDemoErr 0 st0 executeReply executeJson
     (JValue.str "w") (JValue.obj []) "boom" [] rfl rfl rfl rfl rfl⟩

/-- Witness for C5 at a concrete unknown (but hashable) operation. -/
theorem C5_witness :
    (is_tool_use unknownOpReply).tool_use = some unknownOpJson
  ∧ unknownOpJson.dictGet "operation" = some (JValue.str "frobnicate")
  ∧ (JValue.str "frobnicate").pyHashable = true
  ∧ (JValue.str "frobnicate").isStrEq "list_tools" = false
  ∧ (JValue.str "frobnicate").isStrEq "execute_tool" = false
  ∧ (handle_llm_response envDemo 0 unknownOpReply
       = Except.ok (HandleResult.Tool noSuchOperationMsg 0, weather_client)
  ∧ loopStep envDemo 0 st0 unknownOpReply
       = Except.ok ({ messages := [aiMessage unknownOpReply, userMessage noSuchOperationMsg],
                      tool_response := noSuchOperationMsg }, false)) :=
  ⟨rfl, rfl, rfl, rfl, rfl,
   C5_unknown_operation envDemo 0 st0 unknownOpReply unknownOpJson
     (JValue.str "frobnicate") rfl rfl rfl rfl rfl⟩

/-- Witness for C6 at concrete clients sharing server parameters. -/
theorem C6_witness :
    weather_client.server_params = weather_client.server_params
  ∧ ((MCP_client.list_tools envDemo weather_client).2 = weather_client
  ∧ ((MCP_client.list_tools envDemo weather_client).2).server_params
      = weather_client.server_params
  ∧ ((MCP_client.list_tools envDemo weather_client).2).operation = weather_client.operation
  ∧ (∀ r c', MCP_client.execute_tool envDemo weather_client (JValue.str "w") JValue.null
        = Except.ok (r, c') → c' = weather_client)
  ∧ (MCP_client.list_tools envDemo weather_client).1
      = (MCP_client.list_tools envDemo weather_client).1
  ∧ (∀ r c', MCP_client.execute_tool envDemo weather_client (JValue.str "w") JValue.null
        = Except.ok (r, c') →
        MCP_client.execute_tool envDemo weather_client (JValue.str "w") JValue.null
          = Except.ok (r, weather_client))
  ∧ (∀ e, MCP_client.execute_tool envDemo weather_client (JValue.str "w") JValue.null
        = Except.error e →
        MCP_client.execute_tool envDemo weather_client (JValue.str "w") JValue.null
          = Except.error e)) :=
  ⟨rfl, C6_no_mutation envDemo weather_client weather_client (JValue.str "w") JValue.null rfl⟩

/-- Witness for C7 at a concrete successful tool call. -/
theorem C7_witness :
    (envDemo weather_client.server_params).call_tool (JValue.str "w") JValue.null
      = { content := ["sunny"], isError := false }
  ∧ (MCP_client.list_tools envDemo weather_client
      = (("[" ++ String.intercalate ",\n"
            ((envDemo weather_client.server_params).tools.map Tool.model_dump_json)
          ++ "]", false), weather_client)
  ∧ MCP_client.execute_tool envDemo weather_client (JValue.str "w") JValue.null
      = Except.ok (("sunny", false), weather_client)) :=
  ⟨rfl, C7_return_values envDemo weather_client (JValue.str "w") JValue.null
    "sunny" [] false rfl⟩

/-- Witness for C10 at a concrete argument-less `execute_tool` request. -/
theorem C10_witness :
    (is_tool_use bareExecuteReply).tool_use = some bareExecuteJson
  ∧ bareExecuteJson.dictGet "operation" = some (JValue.str "execute_tool")
  ∧ (bareExecuteJson.dictGet "tool_name" = none
     ∨ bareExecuteJson.dictGet "tool_parameters" = none)
  ∧ handle_llm_response envDemo 0 bareExecuteReply = Except.error PyError.typeError :=
  ⟨rfl, rfl, Or.inl rfl,
   C10_missing_args_raise envDemo 0 bareExecuteReply bareExecuteJson rfl rfl (Or.inl rfl)⟩
